import Mathlib

/-!
Verification of the runtime value model of a tree-walking Lox interpreter
(`src/tree-walk-interpreter/src/value.rs`).

Modelling conventions:
* `i64` payloads are `Int`; where Rust two's-complement wrapping matters
  (negation overflow) it is made explicit via `wrap64`.
* `f32` payloads are modelled by `F32`: NaN, the two infinities, and finite
  values carried as rationals.  Every finite IEEE-754 binary32 value is a
  (dyadic, bounded) rational, so the model is a superset of the real payload
  domain; theorems quantified over all `F32` cover every real `f32`.  The
  IEEE distinction between `+0.0` and `-0.0` is not modelled (both are the
  rational `0`; Rust's `== 0f32` test identifies them anyway).
* `Rc`/`RefCell` sharing is dropped for the main `Value` type, whose values
  are finite trees.  The aliasing that lets a Lox array contain itself is
  modelled separately by a store-based embedding (`HValue`, `renderHFuel`)
  used to analyse the renderer's behaviour on self-referential arrays.
* Panics are modelled as an explicit `NegResult.panicked` outcome, and
  fallible conversions (`TryFrom`) as `Except ValueError`.
-/

/-- Model of Rust `f32` payloads: NaN, signed infinities, and finite values
as rationals (a superset of the dyadic rationals representable in binary32;
`isNeg = true` is negative infinity). -/
inductive F32 where
  | nan
  | inf (isNeg : Bool)
  | finite (q : ℚ)
deriving DecidableEq

/-- Rust `value == 0f32`: false for NaN and infinities, numeric zero test on
finite values (`-0.0 == 0.0` holds in IEEE, and both are `finite 0` here). -/
def F32.eqZero : F32 → Bool
  | .finite q => q == 0
  | _ => false

/-- IEEE negation of an `f32`: flips the sign of infinities and finite
values; NaN stays NaN (sign of NaN is unobservable in this model). -/
def F32.neg : F32 → F32
  | .nan => .nan
  | .inf b => .inf (!b)
  | .finite q => .finite (-q)

/-- Truncation of a rational toward zero (the rounding used by Rust's
float-to-int `as` cast). -/
def ratTrunc (q : ℚ) : ℤ := if 0 ≤ q then ⌊q⌋ else ⌈q⌉

/-- Rust `f32 as i64` (a saturating cast since Rust 1.45): NaN goes to 0,
values beyond the `i64` range (including infinities) saturate to
`i64::MIN` / `i64::MAX`, in-range finite values truncate toward zero. -/
def F32.asI64 : F32 → ℤ
  | .nan => 0
  | .inf true => -(2 ^ 63)
  | .inf false => 2 ^ 63 - 1
  | .finite q =>
    let t := ratTrunc q
    if t < -(2 ^ 63) then -(2 ^ 63)
    else if 2 ^ 63 - 1 < t then 2 ^ 63 - 1
    else t

/-- Round a natural number to 24 significant bits, round-half-to-even (the
significand rounding performed by Rust's `i64 as f32`).  Exact when
`a < 2 ^ 24`. -/
def roundNat24 (a : ℕ) : ℕ :=
  if a < 2 ^ 24 then a
  else
    let s := a.log2 - 23
    let q := a / 2 ^ s
    let r := a % 2 ^ s
    let h := 2 ^ (s - 1)
    let q' := if h < r then q + 1 else if r < h then q else if q % 2 = 0 then q else q + 1
    q' * 2 ^ s

/-- Rust `i64 as f32`: round to the nearest representable binary32 value,
ties to even.  Every `i64` magnitude is far below `f32::MAX`, so the result
is always finite. -/
def i64AsF32 (n : ℤ) : F32 := .finite ((n.sign * (roundNat24 n.natAbs : ℤ) : ℤ) : ℚ)

/-- Two's-complement wrap into the `i64` range (Rust release-mode overflow
semantics for `-value` at `i64::MIN`). -/
def wrap64 (n : ℤ) : ℤ := (n + 2 ^ 63) % 2 ^ 64 - 2 ^ 63

/-- Descriptor behind `Value::Function`.  Modelled from the spec:
`crate::function::LoxFunction` is outside the provided sources; only its
`Debug` rendering is observable from the value model ("an
implementation-chosen debug form that at minimum identifies the function"),
carried here as an opaque string field. -/
structure LoxFunction where
  debugRepr : String
deriving DecidableEq

/-- Descriptor behind `Value::Class`.  Modelled from the spec:
`crate::class::LoxClass` is outside the provided sources; the value model
only reads its `name` field ("`Class` renders as its declared name"). -/
structure LoxClass where
  name : String
deriving DecidableEq

/-- Descriptor behind `Value::Object`.  Modelled from the spec:
`crate::class::LoxObject` is outside the provided sources; the value model
only reads its `class_name` field ("`Object` renders as
`"<class-name> instance"`"). -/
structure LoxObject where
  class_name : String
deriving DecidableEq

/-- Method signature stored in a trait.  Modelled from the spec:
`parser::types::FunctionHeader` is outside the provided sources ("a name
plus four method-signature lists"). -/
structure FunctionHeader where
  name : String
deriving DecidableEq

/-- `LoxTrait` from `value.rs`: a name plus four method-signature lists. -/
structure LoxTrait where
  name : String
  methods : List FunctionHeader
  getters : List FunctionHeader
  setters : List FunctionHeader
  static_methods : List FunctionHeader
deriving DecidableEq

/-- The `Value` enum from `value.rs`.  The two fields of `LoxArray`
(`capacity : usize`, `elements : Vec<Box<Value>>`) are inlined into the
`array` constructor; the `Rc` handles around composite variants are dropped
(values here are finite trees; sharing is modelled separately for the
self-referential-array analysis). -/
inductive Value where
  | nil
  | uninitialized
  | boolean (value : Bool)
  | integer (value : ℤ)
  | float (value : F32)
  | string (value : String)
  | function (f : LoxFunction)
  | method (f : LoxFunction) (o : LoxObject)
  | classV (c : LoxClass)
  | object (o : LoxObject)
  | traitV (t : LoxTrait)
  | array (capacity : ℕ) (elements : List Value)
  | module (name : String)

/-- `Value::is_number` from `value.rs`. -/
def Value.is_number : Value → Bool
  | .integer _ => true
  | .float _ => true
  | _ => false

/-- `Value::is_truthy` from `value.rs`: `Nil`, `Uninitialized`,
`Boolean(false)`, `Float` equal to `0f32` and `Integer` equal to `0` are
falsy; everything else (the guarded arms falling through included) is
truthy. -/
def Value.is_truthy : Value → Bool
  | .nil => false
  | .uninitialized => false
  | .boolean false => false
  | .float value => if value.eqZero then false else true
  | .integer value => if value = 0 then false else true
  | _ => true

/-- Outcome of `impl Neg for Value`: either a value or a Rust panic carrying
the panic message. -/
inductive NegResult where
  | ok (v : Value)
  | panicked (msg : String)

/-- `impl Neg for Value` from `value.rs`: flips the sign of `Integer`
(with two's-complement wrapping at `i64::MIN`) and `Float`, and panics —
a host-level abort, not a recoverable error — on every other variant. -/
def negValue : Value → NegResult
  | .integer value => .ok (.integer (wrap64 (-value)))
  | .float value => .ok (.float value.neg)
  | _ => .panicked "Only numbers can change sign"

/-- `impl Not for Value` from `value.rs`: flips `Boolean` directly,
otherwise negates truthiness.  Total — no panic arm. -/
def notValue : Value → Value
  | .boolean value => .boolean (!value)
  | v => .boolean (!v.is_truthy)

/-- The `ValueError` enum from `value.rs`. -/
inductive ValueError where
  | expectingDouble
  | expectingInteger
  | expectingNumber
  | expectingString
deriving DecidableEq

/-- `impl ToString for ValueError` from `value.rs`. -/
def ValueError.toMessage : ValueError → String
  | .expectingDouble => "Type error! Expecting a double!"
  | .expectingInteger => "Type error! Expecting an integer!"
  | .expectingNumber => "Type error! Expecting a number!"
  | .expectingString => "Type error! Expecting a string!"

/-- `impl TryFrom<Value> for i64` from `value.rs`: identity on `Integer`,
saturating truncation on `Float`, and `Err(ValueError::ExpectingDouble)`
on every other variant. -/
def tryFromI64 : Value → Except ValueError ℤ
  | .integer value => .ok value
  | .float value => .ok value.asI64
  | _ => .error .expectingDouble

/-- `impl TryFrom<Value> for f32` from `value.rs`: identity on `Float`,
round-to-nearest widening on `Integer`, and
`Err(ValueError::ExpectingDouble)` on every other variant. -/
def tryFromF32 : Value → Except ValueError F32
  | .float value => .ok value
  | .integer value => .ok (i64AsF32 value)
  | _ => .error .expectingDouble

/-- `impl TryInto<String> for Value` from `value.rs`. -/
def tryIntoString : Value → Except ValueError String
  | .string value => .ok value
  | _ => .error .expectingString

/-- Textual form of an `f32` payload.  Modelled from the spec: "numbers
render via their natural decimal text form"; the shortest-round-trip decimal
algorithm behind Rust's `f32::to_string` is not reproduced, only a total
decimal rendering (no claim depends on its exact digits). -/
def F32.render : F32 → String
  | .nan => "NaN"
  | .inf true => "-inf"
  | .inf false => "inf"
  | .finite q => toString q

mutual

/-- `impl Display for Value` from `value.rs`: `Float`/`Integer`/`Boolean`
via their `to_string`, `String` raw, the `"Uninitialized"`/`"Nil"`
sentinels, debug forms for `Function`/`Method`, names for `Class`/`Trait`,
`"<class> instance"` for `Object`, `"[ e1, e2, ..., ]"` for `Array`
(each element rendered recursively, each followed by `", "`), and the
`"[Module]"` placeholder. -/
def render : Value → String
  | .float value => value.render
  | .integer value => toString value
  | .string value => value
  | .boolean value => if value then "true" else "false"
  | .uninitialized => "Uninitialized"
  | .nil => "Nil"
  | .function lf => lf.debugRepr
  | .classV c => c.name
  | .object o => o.class_name ++ " instance"
  | .method lf o => "Method " ++ lf.debugRepr ++ " of " ++ o.class_name
  | .traitV t => t.name
  | .array _ elements => "[ " ++ renderElements elements ++ "]"
  | .module _ => "[Module]"

/-- The element loop of the `Array` arm of `Display`: writes
`format!("{}, ", e)` for each element in order. -/
def renderElements : List Value → String
  | [] => ""
  | e :: rest => render e ++ ", " ++ renderElements rest

end

/-!
Store-based embedding for the self-referential-array analysis.

In the Rust code an array value is `Rc<RefCell<LoxArray>>`: a shared,
mutable cell, so an array can (after element assignment) contain a clone of
its own handle.  To express this, `HValue` replaces the inline element list
by an index into a store of array cells, and the recursive `Display` logic
becomes `renderHFuel`, which spends one unit of fuel per array dereference.
The real renderer has no fuel bound (and no cycle detection): it terminates
on a value exactly when some finite fuel suffices here, so
`renderHFuel store fuel v = none` for every `fuel` means the real renderer
recurses forever (in Rust: stack overflow, a host-level abort). -/

/-- Heap-level value for the sharing-aware rendering model: like `Value`,
but an array is a reference (store index) to a shared cell.  Variants whose
rendering never recurses are kept in representative form. -/
inductive HValue where
  | nil
  | integer (value : ℤ)
  | boolean (value : Bool)
  | string (value : String)
  | arrayRef (id : ℕ)

mutual

/-- Fuel-indexed version of the `Display` logic over a store of shared
array cells (each cell is its element list; `capacity` plays no role in
rendering).  One unit of fuel is spent per array dereference; `none` means
the given fuel did not suffice.  A dangling index cannot occur in the Rust
original (`Rc` keeps the referent alive) and also yields `none`. -/
def renderHFuel (store : List (List HValue)) : ℕ → HValue → Option String
  | _, .nil => some "Nil"
  | _, .integer value => some (toString value)
  | _, .boolean value => some (if value then "true" else "false")
  | _, .string value => some value
  | 0, .arrayRef _ => none
  | fuel + 1, .arrayRef id =>
    match store.get? id with
    | none => none
    | some elements =>
      match renderHElements store fuel elements with
      | none => none
      | some s => some ("[ " ++ s ++ "]")
termination_by fuel _ => (fuel, 0)

/-- Fuel-indexed element loop of the `Array` arm over the store. -/
def renderHElements (store : List (List HValue)) : ℕ → List HValue → Option String
  | _, [] => some ""
  | fuel, e :: rest =>
    match renderHFuel store fuel e with
    | none => none
    | some s =>
      match renderHElements store fuel rest with
      | none => none
      | some r => some (s ++ ", " ++ r)
termination_by fuel l => (fuel, l.length + 1)

end

/-- The one-cell cyclic store: a single array whose only element is (a
shared handle to) the array itself — the Rust value built by storing a
clone of an array's `Value::Array` handle into its own `elements`. -/
def cyclicStore : List (List HValue) := [[HValue.arrayRef 0]]

/-! Helper lemmas about truncation toward zero. -/

lemma ceil_nonpos_of_nonpos {q : ℚ} (hq : q ≤ 0) : ⌈q⌉ ≤ 0 :=
  Int.ceil_le.mpr (by exact_mod_cast hq)

lemma ratTrunc_nonneg {q : ℚ} (hq : 0 ≤ q) : 0 ≤ ratTrunc q := by
  rw [ratTrunc, if_pos hq]
  exact Int.floor_nonneg.mpr hq

lemma ratTrunc_nonpos {q : ℚ} (hq : q ≤ 0) : ratTrunc q ≤ 0 := by
  by_cases h : 0 ≤ q
  · have hq0 : q = 0 := le_antisymm hq h
    simp [ratTrunc, hq0]
  · rw [ratTrunc, if_neg h]
    exact ceil_nonpos_of_nonpos hq

lemma ratTrunc_abs_le (q : ℚ) : |(ratTrunc q : ℚ)| ≤ |q| := by
  by_cases h : 0 ≤ q
  · rw [ratTrunc, if_pos h, abs_of_nonneg h,
      abs_of_nonneg (by exact_mod_cast Int.floor_nonneg.mpr h)]
    exact Int.floor_le q
  · push_neg at h
    rw [ratTrunc, if_neg (not_le.mpr h), abs_of_nonpos h.le,
      abs_of_nonpos (by exact_mod_cast ceil_nonpos_of_nonpos h.le)]
    exact neg_le_neg (Int.le_ceil q)

lemma abs_lt_ratTrunc_add_one (q : ℚ) : |q| < |(ratTrunc q : ℚ)| + 1 := by
  by_cases h : 0 ≤ q
  · rw [ratTrunc, if_pos h, abs_of_nonneg h,
      abs_of_nonneg (by exact_mod_cast Int.floor_nonneg.mpr h)]
    exact Int.lt_floor_add_one q
  · push_neg at h
    rw [ratTrunc, if_neg (not_le.mpr h), abs_of_nonpos h.le,
      abs_of_nonpos (by exact_mod_cast ceil_nonpos_of_nonpos h.le)]
    have hc := Int.ceil_lt_add_one q
    linarith

lemma ratTrunc_range {q : ℚ} (h : |q| < 2 ^ 63) :
    -(2 ^ 63) ≤ ratTrunc q ∧ ratTrunc q ≤ 2 ^ 63 - 1 := by
  rw [abs_lt] at h
  obtain ⟨h1, h2⟩ := h
  by_cases h0 : 0 ≤ q
  · rw [ratTrunc, if_pos h0]
    have hnn := Int.floor_nonneg.mpr h0
    have hlt : ⌊q⌋ < 2 ^ 63 := Int.floor_lt.mpr (by push_cast; exact h2)
    omega
  · push_neg at h0
    rw [ratTrunc, if_neg (not_le.mpr h0)]
    have hnp := ceil_nonpos_of_nonpos h0.le
    have hgt : (-(2 ^ 63) : ℤ) < ⌈q⌉ := Int.lt_ceil.mpr (by push_cast; exact h1)
    omega

lemma asI64_finite_in_range {q : ℚ} (h : |q| < 2 ^ 63) :
    F32.asI64 (.finite q) = ratTrunc q := by
  obtain ⟨h1, h2⟩ := ratTrunc_range h
  simp only [F32.asI64]
  rw [if_neg (by omega), if_neg (by omega)]

lemma asI64_finite_bounds (q : ℚ) :
    -(2 ^ 63) ≤ F32.asI64 (.finite q) ∧ F32.asI64 (.finite q) ≤ 2 ^ 63 - 1 := by
  simp only [F32.asI64]
  split
  · constructor <;> norm_num
  · split
    · constructor <;> norm_num
    · constructor <;> omega

/-!  Claim theorems. -/

/-- C1: the claim says unary negation of any non-`Integer`/non-`Float`
value is surfaced as a recoverable `ExpectingNumber` type-error result and
never crashes the host.  The code instead panics (`"Only numbers can
change sign"`), a host-level abort; this theorem evaluates the model of
`impl Neg for Value` at non-numeric inputs, exhibiting the panic, and
checks the sign-flip behaviour on `Integer` and `Float` that the claim
correctly describes.  The spec itself (§7) records the panic as a design
defect, so the claim states the intent and the code violates it. -/
theorem c1_negation_panics_on_non_numbers :
    negValue Value.nil = .panicked "Only numbers can change sign" ∧
    negValue (.string "x") = .panicked "Only numbers can change sign" ∧
    negValue (.boolean true) = .panicked "Only numbers can change sign" ∧
    negValue Value.uninitialized = .panicked "Only numbers can change sign" ∧
    negValue (.integer 5) = .ok (.integer (-5)) ∧
    negValue (.float (.finite (5 / 2))) = .ok (.float (.finite (-(5 / 2)))) := by
  refine ⟨rfl, rfl, rfl, rfl, ?_, ?_⟩
  · simp only [negValue, wrap64]
    norm_num
  · simp [negValue, F32.neg]

/-- C2 counterexample: coercing the non-numeric value `Nil` to `i64` fails
with `ValueError::ExpectingDouble`, which is a different error kind from
`ValueError::ExpectingInteger` — refuting the claim that non-numeric
values fail with an `ExpectingInteger`-kind error. -/
theorem c2_nil_coerces_with_expecting_double_not_integer :
    tryFromI64 Value.nil = .error ValueError.expectingDouble ∧
    ValueError.expectingDouble ≠ ValueError.expectingInteger :=
  ⟨rfl, by decide⟩

/-- C2 amended: for every `Value` that is neither `Integer` nor `Float`
(i.e. `is_number` is false), coercion to 64-bit integer fails with an
error of the `ExpectingDouble` kind. -/
theorem c2_non_number_coercion_fails_with_expecting_double :
    ∀ v : Value, v.is_number = false → tryFromI64 v = .error .expectingDouble := by
  intro v h
  cases v <;> simp_all [Value.is_number, tryFromI64]

/-- Witness for the amended C2 theorem at the concrete input `Nil`. -/
theorem c2_expecting_double_witness :
    Value.nil.is_number = false ∧ tryFromI64 Value.nil = .error .expectingDouble :=
  ⟨rfl, c2_non_number_coercion_fails_with_expecting_double Value.nil rfl⟩

/-- C3: coercion to 64-bit integer is the identity on `Integer(n)` and
truncates `Float(f)` toward zero.  Concretely `Float(3.9) ↦ 3` and
`Float(-3.9) ↦ -3`, both for the decimal value `39/10` and for
`8178893/2097152`, the exact rational value of the IEEE binary32 literal
`3.9f32`; in general, for every finite float payload of magnitude below
`2 ^ 63` the result `n` is characterised by `|n| ≤ |q| < |n| + 1` with the
sign of `q` — exactly truncation toward zero. -/
theorem c3_integer_identity_float_truncates_toward_zero :
    (∀ n : ℤ, tryFromI64 (.integer n) = .ok n) ∧
    tryFromI64 (.float (.finite (39 / 10))) = .ok 3 ∧
    tryFromI64 (.float (.finite (-(39 / 10)))) = .ok (-3) ∧
    tryFromI64 (.float (.finite (8178893 / 2097152))) = .ok 3 ∧
    tryFromI64 (.float (.finite (-(8178893 / 2097152)))) = .ok (-3) ∧
    (∀ q : ℚ, |q| < 2 ^ 63 →
      ∃ n : ℤ, tryFromI64 (.float (.finite q)) = .ok n ∧
        |(n : ℚ)| ≤ |q| ∧ |q| < |(n : ℚ)| + 1 ∧
        (0 ≤ q → 0 ≤ n) ∧ (q ≤ 0 → n ≤ 0)) := by
  have key : ∀ q : ℚ, |q| < 2 ^ 63 →
      tryFromI64 (.float (.finite q)) = .ok (ratTrunc q) := by
    intro q hq
    simp only [tryFromI64]
    rw [asI64_finite_in_range hq]
  refine ⟨fun n => rfl, ?_, ?_, ?_, ?_, ?_⟩
  · rw [key (39 / 10) (by rw [abs_lt]; constructor <;> norm_num)]
    rw [ratTrunc, if_pos (by norm_num)]
    norm_num
  · rw [key (-(39 / 10)) (by rw [abs_lt]; constructor <;> norm_num)]
    rw [ratTrunc, if_neg (by norm_num), Int.ceil_neg]
    norm_num
  · rw [key (8178893 / 2097152) (by rw [abs_lt]; constructor <;> norm_num)]
    rw [ratTrunc, if_pos (by norm_num)]
    norm_num
  · rw [key (-(8178893 / 2097152)) (by rw [abs_lt]; constructor <;> norm_num)]
    rw [ratTrunc, if_neg (by norm_num), Int.ceil_neg]
    norm_num
  · intro q hq
    exact ⟨ratTrunc q, key q hq, ratTrunc_abs_le q, abs_lt_ratTrunc_add_one q,
      fun h => ratTrunc_nonneg h, fun h => ratTrunc_nonpos h⟩

/-- Witness for C3 at the concrete input `Float(3.9)`. -/
theorem c3_truncation_witness :
    |(39 / 10 : ℚ)| < 2 ^ 63 ∧
    ∃ n : ℤ, tryFromI64 (.float (.finite (39 / 10))) = .ok n ∧
      |(n : ℚ)| ≤ |(39 / 10 : ℚ)| ∧ |(39 / 10 : ℚ)| < |(n : ℚ)| + 1 ∧
      (0 ≤ (39 / 10 : ℚ) → 0 ≤ n) ∧ ((39 / 10 : ℚ) ≤ 0 → n ≤ 0) :=
  ⟨by rw [abs_lt]; constructor <;> norm_num,
    c3_integer_identity_float_truncates_toward_zero.2.2.2.2.2 (39 / 10)
      (by rw [abs_lt]; constructor <;> norm_num)⟩

/-- C4 counterexample: coercing `Integer(16777217)` (that is, `2 ^ 24 + 1`)
to 32-bit float yields the float value `16777216`, not `16777217` — the
widening conversion is not exact for every 64-bit signed integer, refuting
the "no loss of precision for any 64-bit signed n" part of the claim. -/
theorem c4_precision_loss_at_2pow24_plus_1 :
    tryFromF32 (.integer 16777217) = .ok (.finite 16777216) ∧
    (16777216 : ℚ) ≠ (16777217 : ℚ) := by
  constructor
  · have hlog : Nat.log2 16777217 = 24 := by
      rw [Nat.log2_eq_log_two]
      exact Nat.log_eq_of_pow_le_of_lt_pow (by norm_num) (by norm_num)
    have habs : (16777217 : ℤ).natAbs = 16777217 := rfl
    have hsign : (16777217 : ℤ).sign = 1 := rfl
    simp only [tryFromF32, i64AsF32, habs, hsign, roundNat24, hlog]
    norm_num
  · norm_num

/-- C4 amended: coercion to 32-bit float is the identity on `Float`, and on
every `Integer(n)` it succeeds, yielding the binary32 rounding of `n`
(round to nearest, ties to even); the conversion is exact whenever
`|n| < 2 ^ 24`, but loses precision for some larger 64-bit `n` (e.g.
`16777217 ↦ 16777216`). -/
theorem c4_integer_to_float_exact_below_2pow24 :
    (∀ f : F32, tryFromF32 (.float f) = .ok f) ∧
    (∀ n : ℤ, tryFromF32 (.integer n) = .ok (i64AsF32 n)) ∧
    (∀ n : ℤ, n.natAbs < 2 ^ 24 → i64AsF32 n = .finite (n : ℚ)) := by
  refine ⟨fun f => rfl, fun n => rfl, fun n h => ?_⟩
  simp only [i64AsF32, roundNat24, if_pos h]
  congr 1
  exact_mod_cast congrArg (fun m : ℤ => (m : ℚ)) (Int.sign_mul_natAbs n)

/-- Witness for the amended C4 theorem at the concrete input `Integer(5)`. -/
theorem c4_exactness_witness :
    (5 : ℤ).natAbs < 2 ^ 24 ∧ i64AsF32 5 = .finite ((5 : ℤ) : ℚ) :=
  ⟨by norm_num, c4_integer_to_float_exact_below_2pow24.2.2 5 (by norm_num)⟩

/-- C5: truthiness is a total Boolean function on `Value` whose falsy set
is exactly `{Nil, Uninitialized, Boolean(false), Integer(0), Float(0.0)}`;
every other value — the empty string, non-zero numbers, NaN and infinite
floats, and every `Function`, `Method`, `Class`, `Object`, `Trait`,
`Array`, `Module` value regardless of contents — is truthy. -/
theorem c5_truthiness_falsy_set_characterization :
    ∀ v : Value, v.is_truthy = false ↔
      (v = .nil ∨ v = .uninitialized ∨ v = .boolean false ∨
        v = .integer 0 ∨ v = .float (.finite 0)) := by
  intro v
  cases v with
  | nil => simp [Value.is_truthy]
  | uninitialized => simp [Value.is_truthy]
  | boolean b => cases b <;> simp [Value.is_truthy]
  | integer n => by_cases hn : n = 0 <;> simp [Value.is_truthy, hn]
  | float f =>
    cases f with
    | nan => simp [Value.is_truthy, F32.eqZero]
    | inf b => simp [Value.is_truthy, F32.eqZero]
    | finite q => by_cases hq : q = 0 <;> simp [Value.is_truthy, F32.eqZero, hq]
  | string s => simp [Value.is_truthy]
  | function f => simp [Value.is_truthy]
  | method f o => simp [Value.is_truthy]
  | classV c => simp [Value.is_truthy]
  | object o => simp [Value.is_truthy]
  | traitV t => simp [Value.is_truthy]
  | array c es => simp [Value.is_truthy]
  | module m => simp [Value.is_truthy]

/-- C6: logical not never fails and returns `Boolean(!truthiness(x))` for
every value `x`: the dedicated `Boolean` arm flips the payload directly,
and this agrees with the truthiness-derived rule because the truthiness of
`Boolean(b)` is `b` itself. -/
theorem c6_logical_not_equals_negated_truthiness :
    (∀ b : Bool, (Value.boolean b).is_truthy = b) ∧
    (∀ b : Bool, notValue (.boolean b) = .boolean (!b)) ∧
    (∀ v : Value, notValue v = .boolean (!v.is_truthy)) := by
  refine ⟨fun b => by cases b <;> rfl, fun b => rfl, fun v => ?_⟩
  cases v
  case boolean b => cases b <;> rfl
  all_goals rfl

/-- C7: rendering the array `[Integer(1), String("a"), Boolean(true)]`
produces the bracketed concatenation of each element's own rendering, in
element order (with the `", "` terminator the element loop writes after
every element): the result is exactly `"[ 1, a, true, ]"`. -/
theorem c7_array_renders_bracketed_elements_in_order :
    render (.array 3 [.integer 1, .string "a", .boolean true]) =
      "[ " ++ render (.integer 1) ++ ", " ++ render (.string "a") ++ ", " ++
        render (.boolean true) ++ ", " ++ "]" ∧
    render (.integer 1) = "1" ∧
    render (.string "a") = "a" ∧
    render (.boolean true) = "true" ∧
    render (.array 3 [.integer 1, .string "a", .boolean true]) = "[ 1, a, true, ]" := by
  refine ⟨?_, ?_, ?_, ?_, ?_⟩ <;> simp [render, renderElements] <;> rfl

/-- C8 counterexample: `String` renders as its raw content, so the string
whose content is `"Nil"` renders identically to `Nil` — refuting the part
of the claim that says the sentinel renderings differ from the rendering
of every guest-visible `String` value. -/
theorem c8_string_nil_renders_like_nil :
    render (.string "Nil") = render .nil := by
  simp [render]

/-- C8 amended: `Nil` and `Uninitialized` render as the fixed sentinel
tokens `"Nil"` and `"Uninitialized"`, which are distinct from each other;
a `String` renders as its raw content, so its rendering differs from a
sentinel exactly when its content is not that sentinel token (for
`String("Nil")` the renderings coincide, per the counterexample). -/
theorem c8_sentinels_distinct_and_strings_raw :
    render .nil = "Nil" ∧
    render .uninitialized = "Uninitialized" ∧
    render .nil ≠ render .uninitialized ∧
    (∀ s : String, render (.string s) = s) ∧
    (∀ s : String, s ≠ "Nil" → render (.string s) ≠ render .nil) ∧
    (∀ s : String, s ≠ "Uninitialized" → render (.string s) ≠ render .uninitialized) := by
  refine ⟨by simp [render], by simp [render], by simp [render], fun s => by simp [render],
    fun s h => ?_, fun s h => ?_⟩ <;> simpa [render] using h

/-- Witness for the amended C8 theorem at the concrete string `"a"`. -/
theorem c8_distinctness_witness :
    ("a" : String) ≠ "Nil" ∧ render (.string "a") ≠ render .nil :=
  ⟨by decide, c8_sentinels_distinct_and_strings_raw.2.2.2.2.1 "a" (by decide)⟩

/-- C9: the claim says rendering terminates on every value and in
particular neither recurses forever nor crashes on a self-referential
array.  In the code the `Array` arm of `Display` recurses into each
element with no cycle detection, so on the array that contains itself (the
one-cell `cyclicStore`) no finite recursion budget suffices: the
fuel-indexed model of the renderer returns `none` for every fuel bound,
i.e. the real renderer recurses without bound (a stack overflow, host
abort).  The code violates the claim's "must not infinitely recurse and
must not crash" requirement. -/
theorem c9_self_referential_array_rendering_exhausts_any_fuel :
    ∀ fuel : ℕ, renderHFuel cyclicStore fuel (.arrayRef 0) = none := by
  intro fuel
  induction fuel with
  | zero => simp [renderHFuel]
  | succ n ih =>
    simp only [cyclicStore] at ih ⊢
    simp [renderHFuel, renderHElements, ih]

/-- C10: the `Float` branch of coercion to 64-bit integer is total and
never produces an out-of-range result: every `f32` payload — NaN,
infinities, and finite values of any magnitude — succeeds, with NaN giving
`0`, the infinities saturating to `i64::MIN` / `i64::MAX`, and finite
values beyond the `i64` range saturating likewise (shown concretely at
`±2 ^ 64`). -/
theorem c10_float_to_i64_total_and_saturating :
    (∀ f : F32, ∃ n : ℤ, tryFromI64 (.float f) = .ok n ∧
      -(2 ^ 63) ≤ n ∧ n ≤ 2 ^ 63 - 1) ∧
    tryFromI64 (.float .nan) = .ok 0 ∧
    tryFromI64 (.float (.inf false)) = .ok (2 ^ 63 - 1) ∧
    tryFromI64 (.float (.inf true)) = .ok (-(2 ^ 63)) ∧
    tryFromI64 (.float (.finite (2 ^ 64))) = .ok (2 ^ 63 - 1) ∧
    tryFromI64 (.float (.finite (-(2 ^ 64)))) = .ok (-(2 ^ 63)) := by
  have hcast : ((2 : ℚ) ^ 64) = ((2 ^ 64 : ℤ) : ℚ) := by push_cast; ring
  have htr : ratTrunc ((2 : ℚ) ^ 64) = 2 ^ 64 := by
    rw [ratTrunc, if_pos (by positivity), hcast, Int.floor_intCast]
  have htrneg : ratTrunc (-((2 : ℚ) ^ 64)) = -(2 ^ 64) := by
    rw [ratTrunc, if_neg (by norm_num), Int.ceil_neg, hcast, Int.floor_intCast]
  refine ⟨?_, rfl, rfl, rfl, ?_, ?_⟩
  · intro f
    cases f with
    | nan => exact ⟨0, rfl, by norm_num, by norm_num⟩
    | inf b =>
      cases b with
      | true => exact ⟨-(2 ^ 63), rfl, le_refl _, by norm_num⟩
      | false => exact ⟨2 ^ 63 - 1, rfl, by norm_num, le_refl _⟩
    | finite q =>
      obtain ⟨h1, h2⟩ := asI64_finite_bounds q
      exact ⟨F32.asI64 (.finite q), rfl, h1, h2⟩
  · simp only [tryFromI64, F32.asI64, htr]
    rw [if_neg (by norm_num), if_pos (by norm_num)]
  · simp only [tryFromI64, F32.asI64, htrneg]
    rw [if_pos (by norm_num)]
